import Mathlib

/-
Shallow embedding of src/vpype/read.py, the SVG-to-polyline extractor.

Numbers are modelled as rationals: the Python code works with floats, and
every claim is about the exact arithmetic formulas, which the code computes
with one operation per value.  Runtime exceptions (KeyError on a missing
attribute, ZeroDivisionError) are modelled with Except String.  String
parsing of the attributes (float() and the unit converter from .utils,
which is not part of this file) is abstracted: the root attribute record
holds the already parsed numeric values, with Option encoding attribute
absence.
-/

namespace VpypeRead

/-- Root element attributes after parsing.  viewBox holds the four
whitespace-separated numbers of the attribute, width and height hold the
values of the width and height attributes after unit conversion; none
encodes an absent attribute (a lookup in root.attrib raises KeyError). -/
structure RootAttrib where
  viewBox : Option (ℚ × ℚ × ℚ × ℚ)
  width : Option ℚ
  height : Option ℚ
deriving DecidableEq

/-- The resolved affine transform: scale_x, scale_y, offset_x, offset_y. -/
structure Transform where
  scale_x : ℚ
  scale_y : ℚ
  offset_x : ℚ
  offset_y : ℚ
deriving DecidableEq

/-- The viewBox branch of read (read.py lines 42-60).  With a viewBox
attribute present the code looks up width then height (KeyError if
absent), then computes
  scale_x = w / (viewbox[2] - viewbox[0]),
  scale_y = h / (viewbox[3] - viewbox[1]),
  offset_x = -viewbox[0], offset_y = -viewbox[1];
a zero denominator raises ZeroDivisionError, scale_x first.  Without a
viewBox attribute the transform is scale 1, offset 0. -/
def resolveTransform (root : RootAttrib) : Except String Transform :=
  match root.viewBox with
  | some (vb0, vb1, vb2, vb3) =>
    match root.width with
    | none => Except.error "KeyError: width"
    | some w =>
      match root.height with
      | none => Except.error "KeyError: height"
      | some h =>
        if vb2 - vb0 = 0 then Except.error "ZeroDivisionError: scale_x"
        else if vb3 - vb1 = 0 then Except.error "ZeroDivisionError: scale_y"
        else Except.ok ⟨w / (vb2 - vb0), h / (vb3 - vb1), -vb0, -vb1⟩
  | none => Except.ok ⟨1, 1, 0, 0⟩

/-- A flattened path segment as enumerated by flatten_all_paths: either a
straight Line with start and end, or a curved element exposing in addition
its length and its parametric point-at-fraction function. -/
inductive PathSeg where
  | line (start stop : ℚ × ℚ)
  | curve (start stop : ℚ × ℚ) (length : ℚ) (point : ℚ → ℚ × ℚ)

/-- step = int(math.ceil(elem.length() / quantization)) (read.py line 70). -/
def curveStep (L q : ℚ) : ℤ := ⌈L / q⌉

/-- The linearizer (read.py lines 65-74).  A Line yields the two-element
array [start, end].  A curved element yields an array of step + 1 slots:
slot 0 is written with start, slots 1 .. step-1 are written with
point((i+1)/step) for loop index i in range(step-1), and slot -1 (the
last slot) is written with end.  When step = 0 the array has a single
slot, so the final write of end overwrites the earlier write of start. -/
def linearize (seg : PathSeg) (q : ℚ) : List (ℚ × ℚ) :=
  match seg with
  | .line s e => [s, e]
  | .curve s e L pt =>
    if (curveStep L q).toNat = 0 then [e]
    else s :: (((List.range ((curveStep L q).toNat - 1)).map
      fun i : ℕ => pt (((i : ℚ) + 1) / (((curveStep L q).toNat : ℕ) : ℚ))) ++ [e])

/-- The coordinate scaler (read.py lines 79-80): the vectorized assignment
final_coords[:, 0] = scale_x * (coords[:, 0] + offset_x) and
final_coords[:, 1] = scale_y * (coords[:, 1] + offset_y). -/
def scalePoint (t : Transform) (p : ℚ × ℚ) : ℚ × ℚ :=
  (t.scale_x * (p.1 + t.offset_x), t.scale_y * (p.2 + t.offset_y))

/-- One loop body iteration (read.py lines 64-82): linearize the segment
then scale every coordinate row. -/
def processSegment (t : Transform) (q : ℚ) (seg : PathSeg) : List (ℚ × ℚ) :=
  (linearize seg q).map (scalePoint t)

/-- The parsed document: root attributes and the flattened paths, each a
list of segments, in document traversal order. -/
structure SvgDoc where
  root : RootAttrib
  paths : List (List PathSeg)

/-- The LineString constructor called at read.py line 82.  Shapely accepts
an empty coordinate sequence or one with at least two points, and raises
ValueError on a single-point sequence.  The arrays reaching it here always
hold at least one point (a Line holds two, a curved element fills step + 1
slots with step >= 0). -/
def lineString (coords : List (ℚ × ℚ)) : Except String (List (ℚ × ℚ)) :=
  if coords.length = 1 then
    Except.error "ValueError: LineStrings must have at least 2 coordinate tuples"
  else Except.ok coords

/-- The per-segment loop of read (read.py lines 63-82): for each element
in traversal order, linearize, scale, and construct a LineString appended
to ls_array; the first construction error aborts the loop, as a Python
exception would. -/
def buildLines (t : Transform) (q : ℚ) : List PathSeg → Except String (List (List (ℚ × ℚ)))
  | [] => Except.ok []
  | seg :: rest =>
    match lineString (processSegment t q seg) with
    | Except.error msg => Except.error msg
    | Except.ok ls =>
      match buildLines t q rest with
      | Except.error msg => Except.error msg
      | Except.ok lss => Except.ok (ls :: lss)

/-- The read command (read.py lines 22-84): resolve the transform from the
root attributes, then for every result and every element of its path,
append the scaled linearization, as a LineString, to ls_array. -/
def read (doc : SvgDoc) (q : ℚ) : Except String (List (List (ℚ × ℚ))) :=
  match resolveTransform doc.root with
  | Except.error msg => Except.error msg
  | Except.ok t => buildLines t q doc.paths.flatten

/-- The point count of a curved-segment linearization is always the step
count plus one: the array is allocated with step + 1 slots, and the
step = 0 case collapses to the single slot holding the end point. -/
theorem linearize_curve_length (s e : ℚ × ℚ) (pt : ℚ → ℚ × ℚ) (L q : ℚ) :
    (linearize (PathSeg.curve s e L pt) q).length = (curveStep L q).toNat + 1 := by
  simp only [linearize]
  by_cases h : (curveStep L q).toNat = 0
  · rw [if_pos h, h]
    rfl
  · rw [if_neg h, List.length_cons, List.length_append, List.length_map, List.length_range,
      List.length_singleton]
    omega

/-- A curve of positive length with positive quantization has step at
least one. -/
theorem curveStep_toNat_pos (L q : ℚ) (hL : 0 < L) (hq : 0 < q) :
    1 ≤ (curveStep L q).toNat := by
  have h : 0 < curveStep L q := Int.ceil_pos.mpr (div_pos hL hq)
  omega

/-- Unfolding of the curved-segment linearization when the step count is
nonzero. -/
theorem linearize_curve_eq (s e : ℚ × ℚ) (pt : ℚ → ℚ × ℚ) (L q : ℚ)
    (h : (curveStep L q).toNat ≠ 0) :
    linearize (PathSeg.curve s e L pt) q =
      s :: (((List.range ((curveStep L q).toNat - 1)).map
        fun i : ℕ => pt (((i : ℚ) + 1) / (((curveStep L q).toNat : ℕ) : ℚ))) ++ [e]) := by
  simp only [linearize]
  rw [if_neg h]

/-- Every linearization holds at least one point: a Line holds two, a
curved element fills step + 1 slots. -/
theorem linearize_length_pos (seg : PathSeg) (q : ℚ) : 1 ≤ (linearize seg q).length := by
  cases seg with
  | line s e => norm_num [linearize]
  | curve s e L pt =>
    rw [linearize_curve_length]
    omega

/-- A successful LineString construction returns its coordinates, which
then do not number exactly one. -/
theorem lineString_ok (c out : List (ℚ × ℚ)) (h : lineString c = Except.ok out) :
    out = c ∧ c.length ≠ 1 := by
  rw [lineString] at h
  by_cases hc : c.length = 1
  · rw [if_pos hc] at h
    exact Except.noConfusion h
  · rw [if_neg hc] at h
    exact ⟨(Except.ok.inj h).symm, hc⟩

/-- A successful loop pass yields exactly the scaled linearization of each
segment, in traversal order. -/
theorem buildLines_ok (t : Transform) (q : ℚ) (segs : List PathSeg) :
    ∀ out, buildLines t q segs = Except.ok out → out = segs.map (processSegment t q) := by
  induction segs with
  | nil =>
    intro out h
    rw [buildLines] at h
    rw [← Except.ok.inj h]
    rfl
  | cons seg rest ih =>
    intro out h
    rw [buildLines] at h
    split at h
    · exact Except.noConfusion h
    · split at h
      · exact Except.noConfusion h
      · rename_i x1 ls hls x2 lss hrest
        obtain ⟨hlseq, -⟩ := lineString_ok _ _ hls
        rw [← Except.ok.inj h, List.map_cons, hlseq, ih lss hrest]

/-- Every entry of a successful loop pass has at least two points: the
LineString constructor rejected single-point arrays, and no array is
empty. -/
theorem buildLines_lengths (t : Transform) (q : ℚ) (segs : List PathSeg) :
    ∀ out, buildLines t q segs = Except.ok out → ∀ l ∈ out, 2 ≤ l.length := by
  induction segs with
  | nil =>
    intro out h l hl
    rw [buildLines] at h
    rw [← Except.ok.inj h] at hl
    exact absurd hl (List.not_mem_nil l)
  | cons seg rest ih =>
    intro out h l hl
    rw [buildLines] at h
    split at h
    · exact Except.noConfusion h
    · split at h
      · exact Except.noConfusion h
      · rename_i x1 ls hls x2 lss hrest
        rw [← Except.ok.inj h] at hl
        obtain ⟨hlseq, hne⟩ := lineString_ok _ _ hls
        rcases List.mem_cons.mp hl with h1 | h2
        · have hpos : 1 ≤ (processSegment t q seg).length := by
            rw [processSegment, List.length_map]
            exact linearize_length_pos seg q
          rw [h1, hlseq]
          omega
        · exact ih lss hrest l h2

/-- Once the transform resolves, read is the per-segment loop over the
flattened paths. -/
theorem read_resolved (doc : SvgDoc) (q : ℚ) (t : Transform)
    (h : resolveTransform doc.root = Except.ok t) :
    read doc q = buildLines t q doc.paths.flatten := by
  rw [read, h]

/-- C1: the claim states scale_x = w / vbWidth and scale_y = h / vbHeight
for every attribute mapping, in particular with nonzero minX or minY.  The
code instead divides by viewbox[2] - viewbox[0] and viewbox[3] - viewbox[1],
treating the third and fourth viewBox numbers as corner coordinates rather
than as width and height.  With viewBox 10 10 100 100 and width = height =
100, the code resolves scale_x = 100 / 90, while w / vbWidth = 100 / 100 = 1.
The offsets agree with the claim. -/
theorem viewBox_scale_divides_by_difference :
    resolveTransform ⟨some (10, 10, 100, 100), some 100, some 100⟩ =
      Except.ok ⟨100 / 90, 100 / 90, -10, -10⟩ ∧ (100 : ℚ) / 90 ≠ 100 / 100 :=
  ⟨by norm_num [resolveTransform], by norm_num⟩

/-- C2: the claim states a division-by-zero fault occurs exactly when
vbWidth or vbHeight is zero.  The code divides by viewbox[2] - viewbox[0]
and viewbox[3] - viewbox[1], so with viewBox 5 0 5 10 (vbWidth = 5, nonzero)
it faults, while with viewBox -3 0 0 10 (vbWidth = 0) it resolves a
transform without fault. -/
theorem degenerate_viewBox_fault_mismatch :
    resolveTransform ⟨some (5, 0, 5, 10), some 10, some 10⟩ =
        Except.error "ZeroDivisionError: scale_x" ∧
      (5 : ℚ) ≠ 0 ∧
      resolveTransform ⟨some (-3, 0, 0, 10), some 10, some 10⟩ =
        Except.ok ⟨10 / 3, 1, 3, 0⟩ :=
  ⟨by norm_num [resolveTransform], by norm_num, by norm_num [resolveTransform]⟩

/-- C3 counterexample: a curved segment of length 0 (a degenerate curve,
which the flattening step can produce) with quantization 1 gives
step = ceil(0 / 1) = 0, not >= 1, and its linearization is the single
point [end], not a sequence of at least 2 points. -/
theorem zero_length_curve_breaks_step_invariant :
    ¬ (1 ≤ (curveStep 0 1).toNat ∧
        2 ≤ (linearize (PathSeg.curve (0, 0) (1, 1) 0 fun _ => (0, 0)) 1).length) := by
  have h : curveStep 0 1 = 0 := by rw [curveStep]; norm_num
  simp [linearize, h]

/-- C3 amended: for every curved path segment of positive length and every
positive quantization length, step = ceil(length / quantization) is at
least 1, and the linearizer emits at least 2 points, for lines and curves
alike. -/
theorem linearizer_min_points (s e : ℚ × ℚ) (pt : ℚ → ℚ × ℚ) (L q : ℚ)
    (hL : 0 < L) (hq : 0 < q) :
    1 ≤ (curveStep L q).toNat ∧
      2 ≤ (linearize (PathSeg.curve s e L pt) q).length ∧
      2 ≤ (linearize (PathSeg.line s e) q).length := by
  have h1 := curveStep_toNat_pos L q hL hq
  refine ⟨h1, ?_, by simp [linearize]⟩
  rw [linearize_curve_length]
  omega

/-- Witness for linearizer_min_points at a concrete curve of length 3 and
quantization 2. -/
theorem linearizer_min_points_witness :
    0 < (3 : ℚ) ∧ 0 < (2 : ℚ) ∧
      (1 ≤ (curveStep 3 2).toNat ∧
        2 ≤ (linearize (PathSeg.curve (0, 0) (1, 1) 3 fun t => (t, t)) 2).length ∧
        2 ≤ (linearize (PathSeg.line (0, 0) (1, 1)) 2).length) :=
  ⟨by norm_num, by norm_num,
    linearizer_min_points (0, 0) (1, 1) (fun t => (t, t)) 3 2 (by norm_num) (by norm_num)⟩

/-- C4: the point count of the linearizer is exact: a straight-line
segment yields exactly two points regardless of quantization, and a curved
segment of length L at quantization q yields exactly ceil(L / q) + 1
points. -/
theorem linearizer_point_count (s e : ℚ × ℚ) (pt : ℚ → ℚ × ℚ) (L q : ℚ)
    (hL : 0 ≤ L) (hq : 0 < q) :
    (linearize (PathSeg.line s e) q).length = 2 ∧
      ((linearize (PathSeg.curve s e L pt) q).length : ℤ) = ⌈L / q⌉ + 1 := by
  refine ⟨rfl, ?_⟩
  rw [linearize_curve_length]
  have h0 : 0 ≤ curveStep L q := Int.ceil_nonneg (div_nonneg hL hq.le)
  push_cast
  rw [Int.toNat_of_nonneg h0]
  rfl

/-- Witness for linearizer_point_count at a concrete curve of length 5 and
quantization 2, where ceil(5 / 2) + 1 = 4. -/
theorem linearizer_point_count_witness :
    0 ≤ (5 : ℚ) ∧ 0 < (2 : ℚ) ∧
      ((linearize (PathSeg.line (0, 0) (1, 1)) 2).length = 2 ∧
        ((linearize (PathSeg.curve (0, 0) (1, 1) 5 fun t => (t, t)) 2).length : ℤ) =
          ⌈(5 : ℚ) / 2⌉ + 1) :=
  ⟨by norm_num, by norm_num,
    linearizer_point_count (0, 0) (1, 1) (fun t => (t, t)) 5 2 (by norm_num) (by norm_num)⟩

/-- C5: for every curved segment with step = ceil(L / q), the first
emitted point exactly equals the segment start, the last exactly equals
the segment end, each intermediate point at index j (for j in
1 .. step-1) equals the segment evaluated at parametric fraction
j / step (even closed-form parametric subdivision), and when step = 1
only the two endpoints are emitted.  The hypotheses encode the geometry
contract of the segment library, satisfied by every realizable segment:
the arc length is nonnegative, and it bounds the chord length from above,
so a zero-length segment has coincident endpoints (hdeg).  In that
degenerate case step = 0 and the single emitted point is the end, which
equals the start, so first-point and last-point exactness still hold and
the intermediate and step = 1 conjuncts are vacuous. -/
theorem curve_sampling (s e : ℚ × ℚ) (pt : ℚ → ℚ × ℚ) (L q : ℚ) (n : ℕ)
    (hL : 0 ≤ L) (hq : 0 < q) (hdeg : L = 0 → s = e)
    (hn : n = (curveStep L q).toNat) :
    (linearize (PathSeg.curve s e L pt) q).head? = some s ∧
      (linearize (PathSeg.curve s e L pt) q).getLast? = some e ∧
      (∀ j : ℕ, 1 ≤ j → j < n →
        (linearize (PathSeg.curve s e L pt) q).get? j = some (pt ((j : ℚ) / (n : ℚ)))) ∧
      (n = 1 → linearize (PathSeg.curve s e L pt) q = [s, e]) := by
  rcases eq_or_lt_of_le hL with hL0 | hLpos
  · have hse : s = e := hdeg hL0.symm
    have hstep : curveStep L q = 0 := by
      rw [curveStep, ← hL0, zero_div, Int.ceil_zero]
    have hn0 : n = 0 := by
      rw [hn, hstep]
      rfl
    have hlin : linearize (PathSeg.curve s e L pt) q = [e] := by
      simp only [linearize]
      rw [if_pos (by rw [hstep]; rfl)]
    subst hse
    rw [hlin]
    refine ⟨rfl, rfl, ?_, ?_⟩
    · intro j h1 h2
      rw [hn0] at h2
      exact absurd h2 (by omega)
    · intro h1
      rw [hn0] at h1
      exact absurd h1 (by omega)
  · have hpos : 1 ≤ (curveStep L q).toNat := curveStep_toNat_pos L q hLpos hq
    have hne : (curveStep L q).toNat ≠ 0 := by omega
    have hc := linearize_curve_eq s e pt L q hne
    rw [hc, ← hn]
    refine ⟨rfl, ?_, ?_, ?_⟩
    · rw [← List.cons_append, List.getLast?_concat]
    · intro j h1 h2
      obtain ⟨j0, rfl⟩ : ∃ j0, j = j0 + 1 := ⟨j - 1, by omega⟩
      rw [List.get?_cons_succ, List.get?_append (by
        rw [List.length_map, List.length_range]; omega)]
      have hcast : ((j0 : ℚ) + 1) = ((j0 + 1 : ℕ) : ℚ) := by push_cast; ring
      rw [List.get?_map, List.get?_range (by omega), Option.map_some', hcast]
    · intro h1
      rw [h1]
      simp

/-- Witness for curve_sampling at a concrete curve of length 3 and
quantization 2, where the step count is 2. -/
theorem curve_sampling_witness :
    0 ≤ (3 : ℚ) ∧ 0 < (2 : ℚ) ∧ ((3 : ℚ) = 0 → ((0 : ℚ), (0 : ℚ)) = ((4 : ℚ), (4 : ℚ))) ∧
      2 = (curveStep 3 2).toNat ∧
      ((linearize (PathSeg.curve (0, 0) (4, 4) 3 fun t => (t, t)) 2).head? = some (0, 0) ∧
        (linearize (PathSeg.curve (0, 0) (4, 4) 3 fun t => (t, t)) 2).getLast? = some (4, 4) ∧
        (∀ j : ℕ, 1 ≤ j → j < 2 →
          (linearize (PathSeg.curve (0, 0) (4, 4) 3 fun t => (t, t)) 2).get? j =
            some ((fun t => (t, t)) ((j : ℚ) / ((2 : ℕ) : ℚ)))) ∧
        (2 = 1 → linearize (PathSeg.curve (0, 0) (4, 4) 3 fun t => (t, t)) 2 = [(0, 0), (4, 4)])) := by
  have hn : (2 : ℕ) = (curveStep 3 2).toNat := by
    have h : curveStep 3 2 = 2 := by rw [curveStep, Int.ceil_eq_iff]; norm_num
    rw [h]
    rfl
  exact ⟨by norm_num, by norm_num, by norm_num, hn,
    curve_sampling (0, 0) (4, 4) (fun t => (t, t)) 3 2 2 (by norm_num) (by norm_num)
      (by norm_num) hn⟩

/-- C6: for every raw linearized point (x, y) and resolved transform, the
emitted point is (scale_x * (x + offset_x), scale_y * (y + offset_y)),
applied independently to every point of every produced polyline, after
linearization. -/
theorem scaler_applied_pointwise (t : Transform) (q : ℚ) (seg : PathSeg) (j : ℕ) (p : ℚ × ℚ)
    (h : (linearize seg q).get? j = some p) :
    (processSegment t q seg).get? j =
      some (t.scale_x * (p.1 + t.offset_x), t.scale_y * (p.2 + t.offset_y)) := by
  rw [processSegment, List.get?_map, h]
  rfl

/-- Witness for scaler_applied_pointwise at a concrete line and transform. -/
theorem scaler_applied_pointwise_witness :
    (linearize (PathSeg.line (1, 2) (3, 4)) 5).get? 0 = some (1, 2) ∧
      (processSegment ⟨2, 3, 10, 20⟩ 5 (PathSeg.line (1, 2) (3, 4))).get? 0 =
        some (2 * ((1 : ℚ) + 10), 3 * ((2 : ℚ) + 20)) :=
  ⟨rfl, scaler_applied_pointwise ⟨2, 3, 10, 20⟩ 5 (PathSeg.line (1, 2) (3, 4)) 0 (1, 2) rfl⟩

/-- C7: for every document whose root has no viewBox attribute, the
resolved transform is the identity (scale 1, offset 0), and whatever
collection read produces is exactly the raw linearizations: every output
point equals its raw input coordinate.  (If a degenerate segment makes
the LineString construction raise, no collection is output at all.) -/
theorem no_viewBox_identity (doc : SvgDoc) (q : ℚ) (hvb : doc.root.viewBox = none) :
    resolveTransform doc.root = Except.ok ⟨1, 1, 0, 0⟩ ∧
      ∀ out, read doc q = Except.ok out →
        out = doc.paths.flatten.map fun seg => linearize seg q := by
  have h1 : resolveTransform doc.root = Except.ok ⟨1, 1, 0, 0⟩ := by
    rw [resolveTransform, hvb]
  refine ⟨h1, ?_⟩
  intro out hout
  rw [read_resolved doc q ⟨1, 1, 0, 0⟩ h1] at hout
  rw [buildLines_ok ⟨1, 1, 0, 0⟩ q doc.paths.flatten out hout]
  have h2 : ∀ seg, processSegment ⟨1, 1, 0, 0⟩ q seg = linearize seg q := by
    intro seg
    rw [processSegment]
    have h3 : scalePoint ⟨1, 1, 0, 0⟩ = fun p => p := by
      funext p
      simp [scalePoint]
    rw [h3]
    exact List.map_id _
  rw [List.map_congr_left fun seg _ => h2 seg]

/-- Witness for no_viewBox_identity at a concrete one-line document with
no viewBox attribute. -/
theorem no_viewBox_identity_witness :
    (SvgDoc.mk ⟨none, none, none⟩ [[PathSeg.line (1, 2) (3, 4)]]).root.viewBox = none ∧
      (resolveTransform (SvgDoc.mk ⟨none, none, none⟩ [[PathSeg.line (1, 2) (3, 4)]]).root =
          Except.ok ⟨1, 1, 0, 0⟩ ∧
        ∀ out, read (SvgDoc.mk ⟨none, none, none⟩ [[PathSeg.line (1, 2) (3, 4)]]) 1 =
            Except.ok out →
          out = (SvgDoc.mk ⟨none, none, none⟩ [[PathSeg.line (1, 2) (3, 4)]]).paths.flatten.map
            fun seg => linearize seg 1) :=
  ⟨rfl, no_viewBox_identity (SvgDoc.mk ⟨none, none, none⟩ [[PathSeg.line (1, 2) (3, 4)]]) 1 rfl⟩

/-- C8: when the transform resolves, every collection read outputs holds
exactly one polyline per path segment in document traversal order (the
map over the flattened segment list), its size equals the number of
segments, each entry has at least two points, and a document with no
drawable segments yields the empty collection, not an error.  (If a
degenerate segment makes the LineString construction raise, read errors
and outputs no collection.) -/
theorem one_polyline_per_segment (doc : SvgDoc) (q : ℚ) (t : Transform)
    (h : resolveTransform doc.root = Except.ok t) :
    (∀ out, read doc q = Except.ok out →
        out = doc.paths.flatten.map (processSegment t q) ∧
          out.length = doc.paths.flatten.length ∧
          ∀ l ∈ out, 2 ≤ l.length) ∧
      (doc.paths.flatten = [] → read doc q = Except.ok []) := by
  constructor
  · intro out hout
    rw [read_resolved doc q t h] at hout
    have h2 := buildLines_ok t q doc.paths.flatten out hout
    refine ⟨h2, ?_, buildLines_lengths t q doc.paths.flatten out hout⟩
    rw [h2, List.length_map]
  · intro he
    rw [read_resolved doc q t h, he]
    rfl

/-- Witness for one_polyline_per_segment at a concrete document with one
segment. -/
theorem one_polyline_per_segment_witness :
    resolveTransform (SvgDoc.mk ⟨none, none, none⟩ [[PathSeg.line (0, 0) (1, 1)]]).root =
        Except.ok ⟨1, 1, 0, 0⟩ ∧
      ((∀ out, read (SvgDoc.mk ⟨none, none, none⟩ [[PathSeg.line (0, 0) (1, 1)]]) 1 =
            Except.ok out →
          out = (SvgDoc.mk ⟨none, none, none⟩ [[PathSeg.line (0, 0) (1, 1)]]).paths.flatten.map
              (processSegment ⟨1, 1, 0, 0⟩ 1) ∧
            out.length =
              (SvgDoc.mk ⟨none, none, none⟩ [[PathSeg.line (0, 0) (1, 1)]]).paths.flatten.length ∧
            ∀ l ∈ out, 2 ≤ l.length) ∧
        ((SvgDoc.mk ⟨none, none, none⟩ [[PathSeg.line (0, 0) (1, 1)]]).paths.flatten = [] →
          read (SvgDoc.mk ⟨none, none, none⟩ [[PathSeg.line (0, 0) (1, 1)]]) 1 =
            Except.ok [])) :=
  ⟨rfl, one_polyline_per_segment (SvgDoc.mk ⟨none, none, none⟩ [[PathSeg.line (0, 0) (1, 1)]]) 1
    ⟨1, 1, 0, 0⟩ rfl⟩

/-- C9: extraction is deterministic: two runs of read on the same parsed
input with the same quantization value produce identical output
collections.  The embedding is a pure function of its input, mirroring the
code, which consumes only its two arguments. -/
theorem read_deterministic (d1 d2 : SvgDoc) (q1 q2 : ℚ) (hd : d1 = d2) (hq : q1 = q2) :
    read d1 q1 = read d2 q2 := by
  rw [hd, hq]

/-- Witness for read_deterministic at a concrete document and
quantization. -/
theorem read_deterministic_witness :
    (SvgDoc.mk ⟨none, none, none⟩ [] : SvgDoc) = SvgDoc.mk ⟨none, none, none⟩ [] ∧
      (1 : ℚ) = 1 ∧
      read (SvgDoc.mk ⟨none, none, none⟩ []) 1 = read (SvgDoc.mk ⟨none, none, none⟩ []) 1 :=
  ⟨rfl, rfl, read_deterministic (SvgDoc.mk ⟨none, none, none⟩ []) (SvgDoc.mk ⟨none, none, none⟩ [])
    1 1 rfl rfl⟩

/-- C10: with a viewBox attribute present but the width or the height
attribute absent, read aborts with an attribute-lookup error before any
polyline is produced: the result is an error, never a defaulted
collection. -/
theorem missing_dimension_aborts (doc : SvgDoc) (q : ℚ) (vb : ℚ × ℚ × ℚ × ℚ)
    (hvb : doc.root.viewBox = some vb)
    (hmiss : doc.root.width = none ∨ doc.root.height = none) :
    ∃ msg, read doc q = Except.error msg ∧ ∀ out, read doc q ≠ Except.ok out := by
  obtain ⟨a, b, c, d⟩ := vb
  have h1 : ∃ msg, resolveTransform doc.root = Except.error msg := by
    rcases hmiss with hw | hh
    · exact ⟨"KeyError: width", by rw [resolveTransform, hvb, hw]⟩
    · cases hw2 : doc.root.width with
      | none => exact ⟨"KeyError: width", by rw [resolveTransform, hvb, hw2]⟩
      | some w => exact ⟨"KeyError: height", by rw [resolveTransform, hvb, hw2, hh]⟩
  obtain ⟨msg, hm⟩ := h1
  refine ⟨msg, ?_, ?_⟩
  · rw [read, hm]
  · intro out hout
    rw [read, hm] at hout
    exact Except.noConfusion hout

/-- Witness for missing_dimension_aborts at a concrete document with a
viewBox attribute and no width attribute. -/
theorem missing_dimension_aborts_witness :
    (SvgDoc.mk ⟨some (0, 0, 10, 10), none, some 5⟩
        [[PathSeg.line (0, 0) (1, 1)]]).root.viewBox = some (0, 0, 10, 10) ∧
      ((SvgDoc.mk ⟨some (0, 0, 10, 10), none, some 5⟩
          [[PathSeg.line (0, 0) (1, 1)]]).root.width = none ∨
        (SvgDoc.mk ⟨some (0, 0, 10, 10), none, some 5⟩
          [[PathSeg.line (0, 0) (1, 1)]]).root.height = none) ∧
      ∃ msg,
        read (SvgDoc.mk ⟨some (0, 0, 10, 10), none, some 5⟩ [[PathSeg.line (0, 0) (1, 1)]]) 1 =
            Except.error msg ∧
          ∀ out,
            read (SvgDoc.mk ⟨some (0, 0, 10, 10), none, some 5⟩ [[PathSeg.line (0, 0) (1, 1)]])
                1 ≠ Except.ok out :=
  ⟨rfl, Or.inl rfl,
    missing_dimension_aborts
      (SvgDoc.mk ⟨some (0, 0, 10, 10), none, some 5⟩ [[PathSeg.line (0, 0) (1, 1)]]) 1
      (0, 0, 10, 10) rfl (Or.inl rfl)⟩

end VpypeRead
